import Mathlib

/-!
Shallow embedding of `autogit.py`, a batch tool that pulls, stages, commits
and pushes a list of git repositories driven by a JSON configuration.

The external world is modelled by an oracle:
* `GitEnv` records, for one repository directory, whether the directory and
  its `.git` marker exist and the exit code each external git command would
  return through `run_capture`;
* every command handed to the command runner (`run_capture`) is accumulated
  in a trace (`List Cmd`), so "command X was issued" is trace membership;
* a raised Python exception is an `Except.error`, a normal return is
  `Except.ok` carrying the integer status.

Pure parts (configuration parsing, command construction, message
formatting) are translated directly from the source.
-/

/-- JSON values as produced by `json.load`; objects keep their field list,
and lookup takes the last occurrence of a key, as a Python dict built from
JSON text does. -/
inductive Json where
  | null : Json
  | bool : Bool → Json
  | str : String → Json
  | num : Int → Json
  | arr : List Json → Json
  | obj : List (String × Json) → Json

/-- Python truthiness (`bool(x)` / the `or` operator) of a JSON-decoded value. -/
def truthy : Json → Bool
  | .null => false
  | .bool b => b
  | .str s => !s.isEmpty
  | .num n => n != 0
  | .arr xs => !xs.isEmpty
  | .obj fs => !fs.isEmpty

/-- `d.get(key)` on a Python dict decoded from JSON: the last occurrence of a
duplicated key wins. -/
def dictGet : List (String × Json) → String → Option Json
  | [], _ => none
  | (k, v) :: rest, key =>
    match dictGet rest key with
    | some v2 => some v2
    | none => if k = key then some v else none

/-- Is the value a JSON object?  (Python `isinstance(x, dict)`.) -/
def Json.isObj : Json → Bool
  | .obj _ => true
  | _ => false

/-- Is the value a JSON array?  (Python `isinstance(x, list)`.) -/
def Json.isArr : Json → Bool
  | .arr _ => true
  | _ => false

/-- `GlobalCfg` dataclass (source lines 21-25). -/
structure GlobalCfg where
  pull_rebase : Bool := true
  push : Bool := true
  commit_if_no_changes : Bool := false
deriving DecidableEq

/-- `RepoCfg` dataclass (source lines 12-18).  The loader always stores a
concrete list in `excludes`, so the `None` default of the dataclass is not
needed here. -/
structure RepoCfg where
  path : String
  remote : String := "origin"
  branch : String := "main"
  message : String := "Auto-commit {timestamp}"
  excludes : List String := []
deriving DecidableEq

/-- `Path.expanduser()` on the string form of a path: a leading tilde is
replaced by the home directory.  (The tilde-username form and `Path`
normalisation are not modelled; no claim exercises them.) -/
def expanduser (home p : String) : String :=
  if p = "~" then home
  else match p.toList with
    | '~' :: '/' :: rest => home ++ String.mk ('/' :: rest)
    | _ => p

/-- Oracle for one repository directory: existence of the directory and of
the `.git` marker, and the exit code each external git command would report
through `run_capture`. -/
structure GitEnv where
  pathExists : Bool
  hasDotGit : Bool
  fetchRc : Nat
  pullRc : Nat
  addRc : Nat
  diffCachedRc : Nat
  commitRc : Nat
  pushRc : Nat
deriving DecidableEq

/-- An argument vector handed to the command runner. -/
abbrev Cmd := List String

/-- `is_git_repo` (source lines 45-46): the `.git` marker exists. -/
def is_git_repo (env : GitEnv) : Bool := env.hasDotGit

/-- `fetch_cmd` built in `sync_repo` (source line 121). -/
def fetch_cmd (r : RepoCfg) : Cmd := ["git", "fetch", r.remote]

/-- `pull_cmd` built in `sync_repo` (source line 122). -/
def pull_cmd (r : RepoCfg) : Cmd :=
  ["git", "pull", "--rebase", "--autostash", r.remote, r.branch]

/-- `build_git_add_cmd` (source lines 68-73). -/
def build_git_add_cmd (excludes : List String) : Cmd :=
  ["git", "add", "-A", "--", "."] ++ excludes.map (fun pat => ":(exclude,glob)" ++ pat)

/-- The command `git_has_staged_changes` runs (source line 57). -/
def diff_cached_cmd : Cmd := ["git", "diff", "--cached", "--quiet"]

/-- The commit message after substituting the run timestamp (source line 159). -/
def commit_msg (r : RepoCfg) (timestamp : String) : String :=
  r.message.replace "{timestamp}" timestamp

/-- `commit_cmd` built in `sync_repo` (source line 160). -/
def commit_cmd (r : RepoCfg) (timestamp : String) : Cmd :=
  ["git", "commit", "-m", commit_msg r timestamp]

/-- `push_cmd` built in `sync_repo` (source line 173). -/
def push_cmd (r : RepoCfg) : Cmd := ["git", "push", r.remote, r.branch]

/-- `git_has_staged_changes` (source lines 56-65): exit code 0 of
`git diff --cached --quiet` means nothing staged, 1 means staged changes
exist, anything larger raises `RuntimeError`. -/
def git_has_staged_changes (env : GitEnv) : Except String Bool :=
  if env.diffCachedRc = 0 then .ok false
  else if env.diffCachedRc = 1 then .ok true
  else .error "git diff --cached failed"

/-- Result of synchronising one repository: the commands passed to
`run_capture` in order, and either the returned status or the message of a
raised exception. -/
abbrev SyncResult := List Cmd × Except String Nat

/-- Push step of `sync_repo` (source lines 171-183): runs only when
`g.push`; in dry-run the command is printed, not executed. -/
def pushStep (r : RepoCfg) (g : GlobalCfg) (dry_run : Bool) (env : GitEnv)
    (tr : List Cmd) : SyncResult :=
  if g.push then
    if dry_run then (tr, .ok 0)
    else if env.pushRc = 0 then (tr ++ [push_cmd r], .ok 0)
    else (tr ++ [push_cmd r], .ok 1)
  else (tr, .ok 0)

/-- Commit step of `sync_repo` (source lines 158-169). -/
def commitStep (r : RepoCfg) (g : GlobalCfg) (timestamp : String) (dry_run : Bool)
    (env : GitEnv) (tr : List Cmd) : SyncResult :=
  if dry_run then pushStep r g dry_run env tr
  else if env.commitRc = 0 then pushStep r g dry_run env (tr ++ [commit_cmd r timestamp])
  else (tr ++ [commit_cmd r timestamp], .ok 1)

/-- Staged-change detection of `sync_repo` (source lines 145-156): the call
to `git_has_staged_changes` issues `diff_cached_cmd` through the runner even
in dry-run mode.  The commented-out `git_has_changes` /
`commit_if_no_changes` branch of the source is dead code and is not part of
the behaviour. -/
def checkStep (r : RepoCfg) (g : GlobalCfg) (timestamp : String) (dry_run : Bool)
    (env : GitEnv) (tr : List Cmd) : SyncResult :=
  match git_has_staged_changes env with
  | .error e => (tr ++ [diff_cached_cmd], .error e)
  | .ok true => commitStep r g timestamp dry_run env (tr ++ [diff_cached_cmd])
  | .ok false => (tr ++ [diff_cached_cmd], .ok 0)

/-- Staging step of `sync_repo` (source lines 135-143). -/
def addStep (r : RepoCfg) (g : GlobalCfg) (timestamp : String) (dry_run : Bool)
    (env : GitEnv) (tr : List Cmd) : SyncResult :=
  if dry_run then checkStep r g timestamp dry_run env tr
  else if env.addRc = 0 then
    checkStep r g timestamp dry_run env (tr ++ [build_git_add_cmd r.excludes])
  else (tr ++ [build_git_add_cmd r.excludes], .ok 1)

/-- `sync_repo` (source lines 108-183).  Existence and the `.git` marker are
read from the oracle; when pulling is enabled and not dry-run, the fetch is
issued first and its exit code is ignored, then the rebase-pull runs and a
non-zero exit returns 1. -/
def sync_repo (r : RepoCfg) (g : GlobalCfg) (timestamp : String) (dry_run : Bool)
    (env : GitEnv) : SyncResult :=
  if !env.pathExists then ([], .ok 1)
  else if !is_git_repo env then ([], .ok 1)
  else if g.pull_rebase then
    if dry_run then addStep r g timestamp dry_run env []
    else if env.pullRc = 0 then
      addStep r g timestamp dry_run env [fetch_cmd r, pull_cmd r]
    else ([fetch_cmd r, pull_cmd r], .ok 1)
  else addStep r g timestamp dry_run env []

/-- Extraction of an optional string field with a default
(`r.get(key, default)` feeding a string field of `RepoCfg`).  Python defers
the type error of a present non-string value to the moment the value is
used in a command; here it is a load-time error instead — no claim
distinguishes the two moments. -/
def getStrField (fs : List (String × Json)) (key dflt : String) : Except String String :=
  match dictGet fs key with
  | none => .ok dflt
  | some (.str s) => .ok s
  | some _ => .error "TypeError: expected a string"

/-- `list(r.get("excludes", []) or [])` (source line 101): an absent or
falsy value gives the empty list; `list` of a string is its characters, of
an object its keys.  A non-string element of an array is a deferred type
error in Python and a load-time error here; no claim exercises it. -/
def getExcludes : Option Json → Except String (List String)
  | none => .ok []
  | some j =>
    if !truthy j then .ok []
    else match j with
      | .arr xs => xs.mapM (fun x =>
          match x with
          | .str s => Except.ok s
          | _ => Except.error "TypeError: expected a string pattern")
      | .str s => .ok (s.toList.map (fun c => String.mk [c]))
      | .obj fs => .ok (fs.map (fun kv => kv.1))
      | _ => .error "TypeError: not iterable"

/-- One element of the `repos` list (source lines 92-103): a non-dict entry
always raises in Python (membership test or subscription fails), a dict
without `"path"` raises `ValueError`, otherwise the fields are extracted
with their defaults and the path is user-expanded. -/
def parseRepo (home : String) (r : Json) : Except String RepoCfg :=
  match r with
  | .obj fs =>
    match dictGet fs "path" with
    | none => .error "Each element in repos must have path."
    | some (.str p) =>
      match getStrField fs "remote" "origin" with
      | .error e => .error e
      | .ok remote =>
        match getStrField fs "branch" "main" with
        | .error e => .error e
        | .ok branch =>
          match getStrField fs "message" "Auto-commit {timestamp}" with
          | .error e => .error e
          | .ok message =>
            match getExcludes (dictGet fs "excludes") with
            | .error e => .error e
            | .ok excludes =>
              .ok { path := expanduser home p, remote := remote, branch := branch,
                    message := message, excludes := excludes }
    | some _ => .error "TypeError: path must be a string"
  | _ => .error "TypeError: repos entry is not an object"

/-- The `for r in repos_raw` loop of `load_config` (source lines 91-103):
entries are parsed in order and the first raised exception aborts the load. -/
def parseRepos (home : String) : List Json → Except String (List RepoCfg)
  | [] => .ok []
  | r :: rest =>
    match parseRepo home r with
    | .error e => .error e
    | .ok c =>
      match parseRepos home rest with
      | .error e => .error e
      | .ok cs => .ok (c :: cs)

/-- The `or {}` applied to `cfg.get("global", {})` (source line 84): a falsy
value is replaced by an empty object. -/
def orEmptyObj (j : Json) : Json := if truthy j then j else .obj []

/-- `load_config` (source lines 76-105) applied to the decoded JSON
document (the file read and `json.load` live in `main`'s model).  The
`repos` value must be a non-empty list; `global` defaults to an empty
object, a falsy value is replaced by an empty object (`or {}`) and a truthy
non-object raises when its fields are read. -/
def load_config (home : String) (cfg : Json) : Except String (List RepoCfg × GlobalCfg) :=
  match cfg with
  | .obj fields =>
    match (dictGet fields "repos").getD (.arr []) with
    | .arr entries =>
      if entries.isEmpty then .error "repos must be a non-empty list in JSON."
      else
        match orEmptyObj ((dictGet fields "global").getD (.obj [])) with
        | .obj gfs =>
          let g : GlobalCfg :=
            { pull_rebase := truthy ((dictGet gfs "pull_rebase").getD (.bool true)),
              push := truthy ((dictGet gfs "push").getD (.bool true)),
              commit_if_no_changes := truthy ((dictGet gfs "commit_if_no_changes").getD (.bool false)) }
          match parseRepos home entries with
          | .error e => .error e
          | .ok repos => .ok (repos, g)
        | _ => .error "AttributeError: global value has no attribute get"
    | _ => .error "repos must be a non-empty list in JSON."
  | _ => .error "AttributeError: document has no attribute get"

/-- The per-repository status `main` records (source lines 206-212): the
value `sync_repo` returned, or 1 when it raised. -/
def repoStatus (g : GlobalCfg) (timestamp : String) (dry_run : Bool)
    (envOf : String → GitEnv) (r : RepoCfg) : Nat :=
  match (sync_repo r g timestamp dry_run (envOf r.path)).2 with
  | .ok rc => rc
  | .error _ => 1

/-- The `for r in repos` loop of `main` (source lines 206-212), carrying the
`overall` accumulator and returning it together with each repository's
command trace.  A raised exception is caught and sets `overall` to 1. -/
def mainLoop (g : GlobalCfg) (timestamp : String) (dry_run : Bool)
    (envOf : String → GitEnv) : List RepoCfg → Nat → Nat × List (List Cmd)
  | [], overall => (overall, [])
  | r :: rest, overall =>
    let res := sync_repo r g timestamp dry_run (envOf r.path)
    let overall2 :=
      match res.2 with
      | .ok rc => max overall rc
      | .error _ => 1
    let rest2 := mainLoop g timestamp dry_run envOf rest overall2
    (rest2.1, res.1 :: rest2.2)

/-- `main` (source lines 186-214).  `cfgFile = none` models a missing
configuration file (exit 2 before the parse); `some none` a file that
`json.load` rejects (the exception is caught, exit 2); otherwise the
document is loaded, the timestamp is captured once and shared, and the loop
over the repositories runs with `overall` starting at 0. -/
def autogit_main (cfgFile : Option (Option Json)) (home timestamp : String) (dry_run : Bool)
    (envOf : String → GitEnv) : Nat :=
  match cfgFile with
  | none => 2
  | some none => 2
  | some (some cfg) =>
    match load_config home cfg with
    | .error _ => 2
    | .ok (repos, g) => (mainLoop g timestamp dry_run envOf repos 0).1

/-- A command is one of the four mutating git operations named by the spec
when its subcommand (second argument) is pull, add, commit or push. -/
def isMutatingCmd (c : Cmd) : Bool :=
  ["pull", "add", "commit", "push"].contains (c.getD 1 "")

/-! ### Concrete fixtures used by scenario conjuncts and witnesses -/

/-- The all-default global configuration. -/
def gDefault : GlobalCfg := {}

/-- A repository configuration with every optional field at its default. -/
def repoA : RepoCfg := { path := "/data/notes" }

/-- A second repository configuration with the default message template. -/
def repoB : RepoCfg := { path := "/data/vault", branch := "master" }

/-- A directory that does not exist on disk. -/
def envMissing : GitEnv :=
  { pathExists := false, hasDotGit := false, fetchRc := 0, pullRc := 0, addRc := 0,
    diffCachedRc := 0, commitRc := 0, pushRc := 0 }

/-- A healthy repository in which every git command succeeds and nothing is
staged after the add (`git diff --cached --quiet` exits 0). -/
def envClean : GitEnv :=
  { pathExists := true, hasDotGit := true, fetchRc := 0, pullRc := 0, addRc := 0,
    diffCachedRc := 0, commitRc := 0, pushRc := 0 }

/-- A repository with staged changes (`git diff --cached --quiet` exits 1)
in which every mutating command succeeds. -/
def envDirty : GitEnv :=
  { pathExists := true, hasDotGit := true, fetchRc := 0, pullRc := 0, addRc := 0,
    diffCachedRc := 1, commitRc := 0, pushRc := 0 }

/-- A directory whose `.git` marker exists but whose staged-diff inspection
itself fails (`git diff --cached --quiet` exits 2, e.g. corrupt metadata). -/
def envDiffBroken : GitEnv :=
  { pathExists := true, hasDotGit := true, fetchRc := 0, pullRc := 0, addRc := 0,
    diffCachedRc := 2, commitRc := 0, pushRc := 0 }


/-- A configuration document whose `global` object carries the three global
flags with `commit_if_no_changes` set to `b`. -/
def cfgWithFlag (prj puj : Json) (b : Bool) (reposJson : Json) : Json :=
  .obj [("global", .obj [("pull_rebase", prj), ("push", puj),
                         ("commit_if_no_changes", .bool b)]),
        ("repos", reposJson)]


/-- The two-repository scenario: one directory missing on disk, one clean. -/
def rMissing : RepoCfg := { path := "/missing" }

/-- The clean repository of the two-repository scenario. -/
def rClean : RepoCfg := { path := "/clean" }

/-- The disk state of the two-repository scenario. -/
def envOfScenario : String → GitEnv :=
  fun p => if p = "/clean" then envClean else envMissing



/-- Specification predicate: the `global` entry of the document, if present,
is either falsy (replaced by an empty object) or an object — exactly the
values on which reading its fields does not raise. -/
def globalValid (fields : List (String × Json)) : Bool :=
  match dictGet fields "global" with
  | none => true
  | some j => !truthy j || j.isObj

/-- A minimal valid one-repository configuration document. -/
def cfgC4 : Json := .obj [("repos", .arr [.obj [("path", .str "~/notes")]])]

/-- A configuration document with `global: null` and a repository entry with
`excludes: null`. -/
def cfgC10 : Json :=
  .obj [("global", Json.null),
        ("repos", .arr [.obj [("path", .str "~/notes"), ("excludes", Json.null)]])]

/-! ### Helper lemmas about the command trace -/

theorem pushStep_trace_mem (r : RepoCfg) (g : GlobalCfg) (dry : Bool) (env : GitEnv)
    (tr : List Cmd) (c : Cmd) (h : c ∈ (pushStep r g dry env tr).1) :
    c ∈ tr ∨ (dry = false ∧ g.push = true ∧ c = push_cmd r) := by
  by_cases hp : g.push = true
  · cases dry with
    | true =>
      simp [pushStep, hp] at h
      exact Or.inl h
    | false =>
      by_cases hrc : env.pushRc = 0
      · simp [pushStep, hp, hrc] at h
        rcases h with h | h
        · exact Or.inl h
        · exact Or.inr ⟨rfl, hp, h⟩
      · simp [pushStep, hp, hrc] at h
        rcases h with h | h
        · exact Or.inl h
        · exact Or.inr ⟨rfl, hp, h⟩
  · have hp2 : g.push = false := by simpa using hp
    simp [pushStep, hp2] at h
    exact Or.inl h

theorem commitStep_trace_mem (r : RepoCfg) (g : GlobalCfg) (ts : String) (dry : Bool)
    (env : GitEnv) (tr : List Cmd) (c : Cmd) (h : c ∈ (commitStep r g ts dry env tr).1) :
    c ∈ tr ∨ (dry = false ∧ c = commit_cmd r ts) ∨ (dry = false ∧ g.push = true ∧ c = push_cmd r) := by
  cases dry with
  | true =>
    rw [commitStep] at h
    simp only [if_true] at h
    rcases pushStep_trace_mem r g true env tr c h with h1 | ⟨h1, _⟩
    · exact Or.inl h1
    · exact absurd h1 (by simp)
  | false =>
    by_cases hrc : env.commitRc = 0
    · simp only [commitStep, hrc, if_true, if_false, Bool.false_eq_true] at h
      rcases pushStep_trace_mem r g false env _ c h with h1 | ⟨_, h2, h3⟩
      · rcases List.mem_append.mp h1 with h4 | h4
        · exact Or.inl h4
        · exact Or.inr (Or.inl ⟨rfl, by simpa using h4⟩)
      · exact Or.inr (Or.inr ⟨rfl, h2, h3⟩)
    · simp [commitStep, hrc] at h
      rcases h with h | h
      · exact Or.inl h
      · exact Or.inr (Or.inl ⟨rfl, h⟩)

theorem checkStep_trace_mem (r : RepoCfg) (g : GlobalCfg) (ts : String) (dry : Bool)
    (env : GitEnv) (tr : List Cmd) (c : Cmd) (h : c ∈ (checkStep r g ts dry env tr).1) :
    c ∈ tr ∨ c = diff_cached_cmd ∨ (dry = false ∧ c = commit_cmd r ts)
      ∨ (dry = false ∧ g.push = true ∧ c = push_cmd r) := by
  by_cases h0 : env.diffCachedRc = 0
  · simp [checkStep, git_has_staged_changes, h0] at h
    rcases h with h | h
    · exact Or.inl h
    · exact Or.inr (Or.inl h)
  · by_cases h1 : env.diffCachedRc = 1
    · simp only [checkStep, git_has_staged_changes, h0, h1, if_true, if_false] at h
      rcases commitStep_trace_mem r g ts dry env _ c h with h2 | h2 | h2
      · rcases List.mem_append.mp h2 with h3 | h3
        · exact Or.inl h3
        · exact Or.inr (Or.inl (by simpa using h3))
      · exact Or.inr (Or.inr (Or.inl h2))
      · exact Or.inr (Or.inr (Or.inr h2))
    · simp [checkStep, git_has_staged_changes, h0, h1] at h
      rcases h with h | h
      · exact Or.inl h
      · exact Or.inr (Or.inl h)

theorem addStep_trace_mem (r : RepoCfg) (g : GlobalCfg) (ts : String) (dry : Bool)
    (env : GitEnv) (tr : List Cmd) (c : Cmd) (h : c ∈ (addStep r g ts dry env tr).1) :
    c ∈ tr ∨ c = build_git_add_cmd r.excludes ∨ c = diff_cached_cmd
      ∨ (dry = false ∧ c = commit_cmd r ts) ∨ (dry = false ∧ g.push = true ∧ c = push_cmd r) := by
  cases dry with
  | true =>
    rw [addStep] at h
    simp only [if_true] at h
    rcases checkStep_trace_mem r g ts true env tr c h with h1 | h1 | h1 | h1
    · exact Or.inl h1
    · exact Or.inr (Or.inr (Or.inl h1))
    · exact absurd h1.1 (by simp)
    · exact absurd h1.1 (by simp)
  | false =>
    by_cases hrc : env.addRc = 0
    · simp only [addStep, hrc, if_true, if_false, Bool.false_eq_true] at h
      rcases checkStep_trace_mem r g ts false env _ c h with h1 | h1 | h1 | h1
      · rcases List.mem_append.mp h1 with h2 | h2
        · exact Or.inl h2
        · exact Or.inr (Or.inl (by simpa using h2))
      · exact Or.inr (Or.inr (Or.inl h1))
      · exact Or.inr (Or.inr (Or.inr (Or.inl h1)))
      · exact Or.inr (Or.inr (Or.inr (Or.inr h1)))
    · simp [addStep, hrc] at h
      rcases h with h | h
      · exact Or.inl h
      · exact Or.inr (Or.inl h)

theorem sync_repo_trace_mem (r : RepoCfg) (g : GlobalCfg) (ts : String) (dry : Bool)
    (env : GitEnv) (c : Cmd) (h : c ∈ (sync_repo r g ts dry env).1) :
    c = fetch_cmd r ∨ c = pull_cmd r ∨ c = build_git_add_cmd r.excludes ∨ c = diff_cached_cmd
      ∨ (dry = false ∧ c = commit_cmd r ts) ∨ (dry = false ∧ g.push = true ∧ c = push_cmd r) := by
  by_cases he : env.pathExists = true
  · by_cases hg : env.hasDotGit = true
    · by_cases hpr : g.pull_rebase = true
      · cases dry with
        | true =>
          rw [sync_repo] at h
          simp only [he, hg, is_git_repo, hpr, Bool.not_true, Bool.false_eq_true,
            if_false, if_true] at h
          rcases addStep_trace_mem r g ts true env [] c h with h1 | h1 | h1 | h1 | h1
          · exact absurd h1 (List.not_mem_nil c)
          · exact Or.inr (Or.inr (Or.inl h1))
          · exact Or.inr (Or.inr (Or.inr (Or.inl h1)))
          · exact absurd h1.1 (by simp)
          · exact absurd h1.1 (by simp)
        | false =>
          by_cases hrc : env.pullRc = 0
          · rw [sync_repo] at h
            simp only [he, hg, is_git_repo, hpr, hrc, Bool.not_true, Bool.false_eq_true,
              if_false, if_true] at h
            rcases addStep_trace_mem r g ts false env _ c h with h1 | h1 | h1 | h1 | h1
            · have h2 : c = fetch_cmd r ∨ c = pull_cmd r := by simpa using h1
              rcases h2 with h2 | h2
              · exact Or.inl h2
              · exact Or.inr (Or.inl h2)
            · exact Or.inr (Or.inr (Or.inl h1))
            · exact Or.inr (Or.inr (Or.inr (Or.inl h1)))
            · exact Or.inr (Or.inr (Or.inr (Or.inr (Or.inl h1))))
            · exact Or.inr (Or.inr (Or.inr (Or.inr (Or.inr h1))))
          · simp [sync_repo, he, hg, is_git_repo, hpr, hrc] at h
            rcases h with h | h
            · exact Or.inl h
            · exact Or.inr (Or.inl h)
      · have hpr2 : g.pull_rebase = false := by simpa using hpr
        rw [sync_repo] at h
        simp only [he, hg, is_git_repo, hpr2, Bool.not_true, Bool.false_eq_true,
          if_false, if_true] at h
        rcases addStep_trace_mem r g ts dry env [] c h with h1 | h1 | h1 | h1 | h1
        · exact absurd h1 (List.not_mem_nil c)
        · exact Or.inr (Or.inr (Or.inl h1))
        · exact Or.inr (Or.inr (Or.inr (Or.inl h1)))
        · exact Or.inr (Or.inr (Or.inr (Or.inr (Or.inl h1))))
        · exact Or.inr (Or.inr (Or.inr (Or.inr (Or.inr h1))))
    · have hg2 : env.hasDotGit = false := by simpa using hg
      simp [sync_repo, he, hg2, is_git_repo] at h
  · have he2 : env.pathExists = false := by simpa using he
    simp [sync_repo, he2] at h

/-! ### Helper lemmas about per-repository status values -/

theorem pushStep_status_le (r : RepoCfg) (g : GlobalCfg) (dry : Bool) (env : GitEnv)
    (tr : List Cmd) (n : Nat) (h : (pushStep r g dry env tr).2 = .ok n) : n ≤ 1 := by
  unfold pushStep at h
  split at h
  · split at h
    · simp only [Except.ok.injEq] at h
      omega
    · split at h
      · simp only [Except.ok.injEq] at h
        omega
      · simp only [Except.ok.injEq] at h
        omega
  · simp only [Except.ok.injEq] at h
    omega

theorem commitStep_status_le (r : RepoCfg) (g : GlobalCfg) (ts : String) (dry : Bool)
    (env : GitEnv) (tr : List Cmd) (n : Nat) (h : (commitStep r g ts dry env tr).2 = .ok n) :
    n ≤ 1 := by
  unfold commitStep at h
  split at h
  · exact pushStep_status_le _ _ _ _ _ _ h
  · split at h
    · exact pushStep_status_le _ _ _ _ _ _ h
    · simp only [Except.ok.injEq] at h
      omega

theorem checkStep_status_le (r : RepoCfg) (g : GlobalCfg) (ts : String) (dry : Bool)
    (env : GitEnv) (tr : List Cmd) (n : Nat) (h : (checkStep r g ts dry env tr).2 = .ok n) :
    n ≤ 1 := by
  unfold checkStep at h
  split at h
  · simp at h
  · exact commitStep_status_le _ _ _ _ _ _ _ h
  · simp only [Except.ok.injEq] at h
    omega

theorem addStep_status_le (r : RepoCfg) (g : GlobalCfg) (ts : String) (dry : Bool)
    (env : GitEnv) (tr : List Cmd) (n : Nat) (h : (addStep r g ts dry env tr).2 = .ok n) :
    n ≤ 1 := by
  unfold addStep at h
  split at h
  · exact checkStep_status_le _ _ _ _ _ _ _ h
  · split at h
    · exact checkStep_status_le _ _ _ _ _ _ _ h
    · simp only [Except.ok.injEq] at h
      omega

theorem sync_repo_status_le (r : RepoCfg) (g : GlobalCfg) (ts : String) (dry : Bool)
    (env : GitEnv) (n : Nat) (h : (sync_repo r g ts dry env).2 = .ok n) : n ≤ 1 := by
  unfold sync_repo at h
  split at h
  · simp only [Except.ok.injEq] at h
    omega
  · split at h
    · simp only [Except.ok.injEq] at h
      omega
    · split at h
      · split at h
        · exact addStep_status_le _ _ _ _ _ _ _ h
        · split at h
          · exact addStep_status_le _ _ _ _ _ _ _ h
          · simp only [Except.ok.injEq] at h
            omega
      · exact addStep_status_le _ _ _ _ _ _ _ h

theorem repoStatus_le (g : GlobalCfg) (ts : String) (dry : Bool) (envOf : String → GitEnv)
    (r : RepoCfg) : repoStatus g ts dry envOf r ≤ 1 := by
  unfold repoStatus
  split
  · exact sync_repo_status_le _ _ _ _ _ _ (by assumption)
  · exact Nat.le_refl 1

/-! ### Helper lemmas about the orchestration loop -/

theorem mainLoop_traces (g : GlobalCfg) (ts : String) (dry : Bool) (envOf : String → GitEnv)
    (rs : List RepoCfg) (overall : Nat) :
    (mainLoop g ts dry envOf rs overall).2
      = rs.map (fun r => (sync_repo r g ts dry (envOf r.path)).1) := by
  induction rs generalizing overall with
  | nil => rfl
  | cons r rest ih => simp [mainLoop, ih]

theorem mainLoop_overall (g : GlobalCfg) (ts : String) (dry : Bool) (envOf : String → GitEnv)
    (rs : List RepoCfg) (overall : Nat) (hov : overall ≤ 1) :
    (mainLoop g ts dry envOf rs overall).1
      = (rs.map (repoStatus g ts dry envOf)).foldl max overall := by
  induction rs generalizing overall with
  | nil => rfl
  | cons r rest ih =>
    rw [mainLoop]
    cases hres : (sync_repo r g ts dry (envOf r.path)).2 with
    | ok rc =>
      have hst : repoStatus g ts dry envOf r = rc := by
        unfold repoStatus
        rw [hres]
      have hrc : rc ≤ 1 := sync_repo_status_le _ _ _ _ _ _ hres
      simp only [hres, List.map_cons, List.foldl_cons, hst]
      exact ih (max overall rc) (by omega)
    | error e =>
      have hst : repoStatus g ts dry envOf r = 1 := by
        unfold repoStatus
        rw [hres]
      have hmax : max overall 1 = 1 := by omega
      simp only [hres, List.map_cons, List.foldl_cons, hst, hmax]
      exact ih 1 (Nat.le_refl 1)

/-! ### Helper lemmas about the configuration loader -/

theorem dictGet_cons_ne (k key : String) (hne : k ≠ key) (v : Json)
    (fs : List (String × Json)) : dictGet ((k, v) :: fs) key = dictGet fs key := by
  cases hd : dictGet fs key with
  | some v2 => simp [dictGet, hd]
  | none => simp [dictGet, hd, hne]

theorem dictGet_cons_self (k : String) (v : Json) (fs : List (String × Json))
    (hnone : dictGet fs k = none) : dictGet ((k, v) :: fs) k = some v := by
  simp [dictGet, hnone]

theorem getStrField_cons_ne (k key dflt : String) (hne : k ≠ key) (v : Json)
    (fs : List (String × Json)) :
    getStrField ((k, v) :: fs) key dflt = getStrField fs key dflt := by
  unfold getStrField
  rw [dictGet_cons_ne k key hne v fs]

theorem parseRepos_ok (home : String) (l : List Json) (ys : List RepoCfg)
    (h : parseRepos home l = .ok ys) :
    ys.length = l.length ∧ ∀ i (h1 : i < l.length) (h2 : i < ys.length),
      parseRepo home (l.get ⟨i, h1⟩) = .ok (ys.get ⟨i, h2⟩) := by
  induction l generalizing ys with
  | nil =>
    unfold parseRepos at h
    simp only [Except.ok.injEq] at h
    subst h
    exact ⟨rfl, fun i h1 _ => absurd h1 (Nat.not_lt_zero i)⟩
  | cons r rest ih =>
    unfold parseRepos at h
    cases hr : parseRepo home r with
    | error e => rw [hr] at h; exact absurd h (by simp)
    | ok c =>
      rw [hr] at h
      cases hrest : parseRepos home rest with
      | error e => rw [hrest] at h; exact absurd h (by simp)
      | ok cs =>
        rw [hrest] at h
        simp only [Except.ok.injEq] at h
        subst h
        rcases ih cs hrest with ⟨hlen, hidx⟩
        refine ⟨by simp [hlen], fun i h1 h2 => ?_⟩
        cases i with
        | zero => simpa using hr
        | succ j =>
          simp only [List.length_cons, Nat.succ_lt_succ_iff] at h1 h2
          simpa using hidx j h1 h2

theorem parseRepos_ok_of_mem (home : String) (l : List Json) (ys : List RepoCfg)
    (h : parseRepos home l = .ok ys) (e : Json) (he : e ∈ l) :
    ∃ c, parseRepo home e = .ok c := by
  induction l generalizing ys with
  | nil => exact absurd he (List.not_mem_nil e)
  | cons r rest ih =>
    unfold parseRepos at h
    cases hr : parseRepo home r with
    | error e2 => rw [hr] at h; exact absurd h (by simp)
    | ok c =>
      rw [hr] at h
      cases hrest : parseRepos home rest with
      | error e2 => rw [hrest] at h; exact absurd h (by simp)
      | ok cs =>
        rcases List.mem_cons.mp he with he2 | he2
        · exact ⟨c, he2 ▸ hr⟩
        · exact ih cs hrest he2

/-! ### Claim C6 -/

/-- C6: for every repository configuration whose path does not exist on
disk, `sync_repo` returns status 1 and passes no command at all to the
command runner (the trace is empty). -/
theorem C6_missing_directory_no_commands (r : RepoCfg) (g : GlobalCfg) (ts : String)
    (dry : Bool) (env : GitEnv) (h : env.pathExists = false) :
    sync_repo r g ts dry env = ([], .ok 1) := by
  simp [sync_repo, h]

/-- Witness for C6 at a concrete repository and environment. -/
theorem C6_missing_directory_no_commands_witness :
    envMissing.pathExists = false
    ∧ sync_repo repoA gDefault "2026-10-12 08:00:00" false envMissing = ([], .ok 1) :=
  ⟨rfl, C6_missing_directory_no_commands repoA gDefault "2026-10-12 08:00:00" false envMissing rfl⟩

/-! ### The subcommand (second argv entry) of each issued command -/

theorem fetch_cmd_verb (r : RepoCfg) : (fetch_cmd r).getD 1 "" = "fetch" := rfl

theorem pull_cmd_verb (r : RepoCfg) : (pull_cmd r).getD 1 "" = "pull" := rfl

theorem add_cmd_verb (ex : List String) : (build_git_add_cmd ex).getD 1 "" = "add" := rfl

theorem diff_cmd_verb : diff_cached_cmd.getD 1 "" = "diff" := rfl

theorem commit_cmd_verb (r : RepoCfg) (ts : String) : (commit_cmd r ts).getD 1 "" = "commit" := rfl

theorem push_cmd_verb (r : RepoCfg) : (push_cmd r).getD 1 "" = "push" := rfl

/-! ### Claim C7 -/

/-- C7: whenever the flow reaches the staged-changes check (directory and
`.git` exist, pull and add succeed) and the check reports nothing staged,
`sync_repo` returns success 0 and no commit and no push command is ever
passed to the runner. -/
theorem C7_no_staged_changes_skips_commit_and_push (r : RepoCfg) (g : GlobalCfg)
    (ts : String) (dry : Bool) (env : GitEnv)
    (hex : env.pathExists = true) (hgit : env.hasDotGit = true)
    (hpull : env.pullRc = 0) (hadd : env.addRc = 0) (hdiff : env.diffCachedRc = 0) :
    (sync_repo r g ts dry env).2 = .ok 0
    ∧ ∀ c ∈ (sync_repo r g ts dry env).1, c.getD 1 "" ≠ "commit" ∧ c.getD 1 "" ≠ "push" := by
  have hcheck : ∀ (d : Bool) (tr2 : List Cmd),
      checkStep r g ts d env tr2 = (tr2 ++ [diff_cached_cmd], Except.ok 0) := by
    intro d tr2
    simp [checkStep, git_has_staged_changes, hdiff]
  cases hd : dry with
  | true =>
    have hs : sync_repo r g ts true env = ([diff_cached_cmd], Except.ok 0) := by
      cases hp : g.pull_rebase <;>
        simp [sync_repo, addStep, is_git_repo, hex, hgit, hp, hcheck]
    rw [hs]
    refine ⟨rfl, ?_⟩
    intro c hc
    simp only [List.mem_cons, List.not_mem_nil, or_false] at hc
    subst hc
    rw [diff_cmd_verb]
    exact ⟨by decide, by decide⟩
  | false =>
    cases hp : g.pull_rebase with
    | true =>
      have hs : sync_repo r g ts false env
          = ([fetch_cmd r, pull_cmd r, build_git_add_cmd r.excludes, diff_cached_cmd],
             Except.ok 0) := by
        simp [sync_repo, addStep, is_git_repo, hex, hgit, hp, hpull, hadd, hcheck]
      rw [hs]
      refine ⟨rfl, ?_⟩
      intro c hc
      simp only [List.mem_cons, List.not_mem_nil, or_false] at hc
      rcases hc with rfl | rfl | rfl | rfl
      · rw [fetch_cmd_verb]; exact ⟨by decide, by decide⟩
      · rw [pull_cmd_verb]; exact ⟨by decide, by decide⟩
      · rw [add_cmd_verb]; exact ⟨by decide, by decide⟩
      · rw [diff_cmd_verb]; exact ⟨by decide, by decide⟩
    | false =>
      have hs : sync_repo r g ts false env
          = ([build_git_add_cmd r.excludes, diff_cached_cmd], Except.ok 0) := by
        simp [sync_repo, addStep, is_git_repo, hex, hgit, hp, hadd, hcheck]
      rw [hs]
      refine ⟨rfl, ?_⟩
      intro c hc
      simp only [List.mem_cons, List.not_mem_nil, or_false] at hc
      rcases hc with rfl | rfl
      · rw [add_cmd_verb]; exact ⟨by decide, by decide⟩
      · rw [diff_cmd_verb]; exact ⟨by decide, by decide⟩

/-- Witness for C7 at a concrete repository and environment. -/
theorem C7_no_staged_changes_skips_commit_and_push_witness :
    (sync_repo repoA gDefault "2026-10-12 08:00:00" false envClean).2 = .ok 0 :=
  (C7_no_staged_changes_skips_commit_and_push repoA gDefault "2026-10-12 08:00:00" false
    envClean rfl rfl rfl rfl rfl).1

/-! ### Claim C9 -/

/-- C9: with the global push flag disabled, no push command is ever passed
to the runner, neither by a single `sync_repo` (for any repository state,
even after a successful commit) nor anywhere in the whole orchestrated run. -/
theorem C9_push_disabled_never_pushes (g : GlobalCfg) (ts : String) (dry : Bool)
    (envOf : String → GitEnv) (rs : List RepoCfg) (hpush : g.push = false) :
    (∀ (r : RepoCfg) (env : GitEnv), ∀ c ∈ (sync_repo r g ts dry env).1, c.getD 1 "" ≠ "push")
    ∧ ∀ tr ∈ (mainLoop g ts dry envOf rs 0).2, ∀ c ∈ tr, c.getD 1 "" ≠ "push" := by
  have h1 : ∀ (r : RepoCfg) (env : GitEnv), ∀ c ∈ (sync_repo r g ts dry env).1,
      c.getD 1 "" ≠ "push" := by
    intro r env c hc
    rcases sync_repo_trace_mem r g ts dry env c hc with h | h | h | h | h | h
    · subst h; rw [fetch_cmd_verb]; decide
    · subst h; rw [pull_cmd_verb]; decide
    · subst h; rw [add_cmd_verb]; decide
    · subst h; rw [diff_cmd_verb]; decide
    · rcases h with ⟨_, h⟩; subst h; rw [commit_cmd_verb]; decide
    · exact absurd h.2.1 (by simp [hpush])
  refine ⟨h1, ?_⟩
  intro tr htr c hc
  rw [mainLoop_traces] at htr
  rcases List.mem_map.mp htr with ⟨r, _, rfl⟩
  exact h1 r (envOf r.path) c hc

/-- Witness for C9: a dirty repository under `push: false` commits, and the
commit command it issues is not a push. -/
theorem C9_push_disabled_never_pushes_witness :
    (commit_cmd repoA "2026-10-12 08:00:00").getD 1 "" ≠ "push" :=
  (C9_push_disabled_never_pushes { push := false } "2026-10-12 08:00:00" false
    (fun _ => envDirty) [repoA] rfl).1 repoA envDirty
    (commit_cmd repoA "2026-10-12 08:00:00")
    (by
      rw [show (sync_repo repoA { push := false } "2026-10-12 08:00:00" false envDirty).1
          = [fetch_cmd repoA, pull_cmd repoA, build_git_add_cmd [], diff_cached_cmd,
             commit_cmd repoA "2026-10-12 08:00:00"] from rfl]
      simp)

/-! ### Claim C1 -/

/-- C1 (amended): in dry-run mode, on a directory that exists and carries a
`.git` marker, the only command passed to the runner is the read-only
staged-diff inspection — never a pull, add, commit or push — and whenever
that inspection itself succeeds (exit code 0 or 1, i.e. any well-formed
repository state), `sync_repo` returns success 0.  If the inspection exits
with a code above 1, `sync_repo` raises instead of returning 0, which is
the one situation the original claim overlooks. -/
theorem C1_dry_run_issues_only_diff (r : RepoCfg) (g : GlobalCfg) (ts : String)
    (env : GitEnv) (hex : env.pathExists = true) (hgit : env.hasDotGit = true) :
    (sync_repo r g ts true env).1 = [diff_cached_cmd]
    ∧ (∀ c ∈ (sync_repo r g ts true env).1, isMutatingCmd c = false)
    ∧ (env.diffCachedRc ≤ 1 → (sync_repo r g ts true env).2 = .ok 0) := by
  have hck : ∀ tr2, (checkStep r g ts true env tr2).1 = tr2 ++ [diff_cached_cmd] := by
    intro tr2
    unfold checkStep commitStep pushStep
    cases hgs : git_has_staged_changes env with
    | error e => rfl
    | ok b =>
      cases b with
      | false => rfl
      | true =>
        simp only [if_true]
        cases g.push <;> simp
  have htr : (sync_repo r g ts true env).1 = [diff_cached_cmd] := by
    cases hp : g.pull_rebase <;>
      simp [sync_repo, addStep, is_git_repo, hex, hgit, hp, hck]
  refine ⟨htr, ?_, ?_⟩
  · intro c hc
    rw [htr] at hc
    simp only [List.mem_cons, List.not_mem_nil, or_false] at hc
    subst hc
    decide
  · intro hle
    have hres : ∀ tr2, (checkStep r g ts true env tr2).2 = .ok 0 := by
      intro tr2
      rcases Nat.lt_or_ge env.diffCachedRc 1 with h0 | h1
      · have h0 : env.diffCachedRc = 0 := by omega
        simp [checkStep, git_has_staged_changes, h0]
      · have h1 : env.diffCachedRc = 1 := by omega
        simp [checkStep, git_has_staged_changes, h1, commitStep, pushStep]
    cases hp : g.pull_rebase <;>
      simp [sync_repo, addStep, is_git_repo, hex, hgit, hp, hres]

/-- Witness for C1 at a concrete repository: a clean repository in dry-run
issues only the diff inspection and returns 0. -/
theorem C1_dry_run_issues_only_diff_witness :
    (sync_repo repoA gDefault "2026-10-12 08:00:00" true envClean).1 = [diff_cached_cmd]
    ∧ (sync_repo repoA gDefault "2026-10-12 08:00:00" true envClean).2 = .ok 0 :=
  ⟨(C1_dry_run_issues_only_diff repoA gDefault "2026-10-12 08:00:00" envClean rfl rfl).1,
   (C1_dry_run_issues_only_diff repoA gDefault "2026-10-12 08:00:00" envClean rfl rfl).2.2
     (by decide)⟩

/-- C1 counterexample: a directory that exists and carries a `.git` marker
(satisfying the claim's preconditions) but whose staged-diff inspection
fails (exit code 2) makes dry-run `sync_repo` raise a `RuntimeError`
instead of returning success 0 — so the status is not 0 "regardless of the
actual repository state". -/
theorem C1_dry_run_counterexample :
    envDiffBroken.pathExists = true ∧ envDiffBroken.hasDotGit = true
    ∧ (sync_repo repoA gDefault "2026-10-12 08:00:00" true envDiffBroken).2 ≠ Except.ok 0 := by
  refine ⟨rfl, rfl, ?_⟩
  intro h
  rw [show (sync_repo repoA gDefault "2026-10-12 08:00:00" true envDiffBroken).2
      = Except.error "git diff --cached failed" from rfl] at h
  exact Except.noConfusion h

/-! ### Claim C2 -/

theorem sync_repo_flag_invariant (r : RepoCfg) (pr pu b b2 : Bool) (ts : String)
    (dry : Bool) (env : GitEnv) :
    sync_repo r ⟨pr, pu, b⟩ ts dry env = sync_repo r ⟨pr, pu, b2⟩ ts dry env := rfl

theorem mainLoop_flag_invariant (pr pu b b2 : Bool) (ts : String) (dry : Bool)
    (envOf : String → GitEnv) (rs : List RepoCfg) (ov : Nat) :
    mainLoop ⟨pr, pu, b⟩ ts dry envOf rs ov = mainLoop ⟨pr, pu, b2⟩ ts dry envOf rs ov := by
  induction rs generalizing ov with
  | nil => rfl
  | cons r rest ih =>
    simp only [mainLoop]
    rw [sync_repo_flag_invariant r pr pu b b2 ts dry (envOf r.path), ih]

theorem load_config_cfgWithFlag (home : String) (prj puj : Json) (b : Bool)
    (e : Json) (rest : List Json) :
    load_config home (cfgWithFlag prj puj b (.arr (e :: rest)))
      = match parseRepos home (e :: rest) with
        | .error er => .error er
        | .ok repos => .ok (repos, ⟨truthy prj, truthy puj, b⟩) := rfl

theorem autogit_main_flag_invariant (home ts : String) (dry : Bool)
    (envOf : String → GitEnv) (prj puj reposJson : Json) (b b2 : Bool) :
    autogit_main (some (some (cfgWithFlag prj puj b reposJson))) home ts dry envOf
      = autogit_main (some (some (cfgWithFlag prj puj b2 reposJson))) home ts dry envOf := by
  cases reposJson with
  | arr entries =>
    cases entries with
    | nil => rfl
    | cons e rest =>
      simp only [autogit_main, load_config_cfgWithFlag]
      cases hp : parseRepos home (e :: rest) with
      | error er => rfl
      | ok repos =>
        simp only []
        exact congrArg Prod.fst (mainLoop_flag_invariant (truthy prj) (truthy puj) b b2
          ts dry envOf repos 0)
  | null => rfl
  | bool b3 => rfl
  | str s => rfl
  | num n => rfl
  | obj fs => rfl

/-- C2: the reserved flag `commit_if_no_changes` is parsed but has no
observable effect: for every repository state, two global configurations
differing only in that flag produce the same `sync_repo` result (same
commands, same status), the same orchestration loop output (same traces,
same overall code), and the same process exit code for the canonical
configuration document carrying the flag. -/
theorem C2_commit_if_no_changes_no_effect (r : RepoCfg) (pr pu b b2 : Bool)
    (ts home : String) (dry : Bool) (env : GitEnv) (envOf : String → GitEnv)
    (rs : List RepoCfg) (ov : Nat) (prj puj reposJson : Json) :
    sync_repo r ⟨pr, pu, b⟩ ts dry env = sync_repo r ⟨pr, pu, b2⟩ ts dry env
    ∧ mainLoop ⟨pr, pu, b⟩ ts dry envOf rs ov = mainLoop ⟨pr, pu, b2⟩ ts dry envOf rs ov
    ∧ autogit_main (some (some (cfgWithFlag prj puj b reposJson))) home ts dry envOf
        = autogit_main (some (some (cfgWithFlag prj puj b2 reposJson))) home ts dry envOf :=
  ⟨sync_repo_flag_invariant r pr pu b b2 ts dry env,
   mainLoop_flag_invariant pr pu b b2 ts dry envOf rs ov,
   autogit_main_flag_invariant home ts dry envOf prj puj reposJson b b2⟩

/-! ### Claim C3 -/

/-- C3: the orchestrator visits every repository in configured order — each
repository's trace is exactly what its own `sync_repo` run produces,
independent of every other repository's failures (a raised error is caught
and recorded as status 1) — and the final code is the maximum of the
per-repository status codes; in the concrete scenario of a missing
directory followed by a clean repository, the exit code is 1 and the clean
repository is still fully processed. -/
theorem C3_orchestrator_processes_all (g : GlobalCfg) (ts : String) (dry : Bool)
    (envOf : String → GitEnv) (rs : List RepoCfg) :
    (mainLoop g ts dry envOf rs 0).2
        = rs.map (fun r => (sync_repo r g ts dry (envOf r.path)).1)
    ∧ (mainLoop g ts dry envOf rs 0).1 = (rs.map (repoStatus g ts dry envOf)).foldl max 0
    ∧ mainLoop gDefault "2026-10-12 08:00:00" false envOfScenario [rMissing, rClean] 0
        = (1, [[], [fetch_cmd rClean, pull_cmd rClean, build_git_add_cmd [], diff_cached_cmd]]) :=
  ⟨mainLoop_traces g ts dry envOf rs 0,
   mainLoop_overall g ts dry envOf rs 0 (Nat.zero_le 1),
   rfl⟩

/-! ### Claim C8 -/

theorem sync_repo_commit_shape (r : RepoCfg) (g : GlobalCfg) (ts : String) (dry : Bool)
    (env : GitEnv) (c : Cmd) (hc : c ∈ (sync_repo r g ts dry env).1)
    (hv : c.getD 1 "" = "commit") : c = commit_cmd r ts := by
  rcases sync_repo_trace_mem r g ts dry env c hc with h | h | h | h | h | h
  · subst h; rw [fetch_cmd_verb] at hv; exact absurd hv (by decide)
  · subst h; rw [pull_cmd_verb] at hv; exact absurd hv (by decide)
  · subst h; rw [add_cmd_verb] at hv; exact absurd hv (by decide)
  · subst h; rw [diff_cmd_verb] at hv; exact absurd hv (by decide)
  · exact h.2
  · rcases h with ⟨_, _, h⟩; subst h; rw [push_cmd_verb] at hv; exact absurd hv (by decide)

/-- C8: the run timestamp is a single string shared by the whole
invocation: substituting it into equal message templates yields
byte-identical commit messages, and every commit command issued anywhere in
a run — by one `sync_repo` or across the whole loop — is exactly
`git commit -m` with the template instantiated at that one timestamp. -/
theorem C8_one_timestamp_per_run (ts : String) :
    (∀ r1 r2 : RepoCfg, r1.message = r2.message → commit_msg r1 ts = commit_msg r2 ts)
    ∧ (∀ (r : RepoCfg) (g : GlobalCfg) (dry : Bool) (env : GitEnv) (c : Cmd),
        c ∈ (sync_repo r g ts dry env).1 → c.getD 1 "" = "commit" → c = commit_cmd r ts)
    ∧ (∀ (g : GlobalCfg) (dry : Bool) (envOf : String → GitEnv) (rs : List RepoCfg)
        (tr : List Cmd) (c : Cmd), tr ∈ (mainLoop g ts dry envOf rs 0).2 → c ∈ tr →
        c.getD 1 "" = "commit" → ∃ r, r ∈ rs ∧ c = commit_cmd r ts) := by
  refine ⟨?_, ?_, ?_⟩
  · intro r1 r2 h
    unfold commit_msg
    rw [h]
  · exact fun r g dry env c hc hv => sync_repo_commit_shape r g ts dry env c hc hv
  · intro g dry envOf rs tr c htr hc hv
    rw [mainLoop_traces] at htr
    rcases List.mem_map.mp htr with ⟨r, hr, rfl⟩
    exact ⟨r, hr, sync_repo_commit_shape r g ts dry (envOf r.path) c hc hv⟩

/-- Witness for C8: two repositories with the same template get the same
substituted message, and the commit command a dirty repository issues is
the instantiated template. -/
theorem C8_one_timestamp_per_run_witness :
    commit_msg repoA "2026-10-12 09:30:00" = commit_msg repoB "2026-10-12 09:30:00"
    ∧ commit_cmd repoA "2026-10-12 09:30:00" = commit_cmd repoA "2026-10-12 09:30:00" :=
  ⟨(C8_one_timestamp_per_run "2026-10-12 09:30:00").1 repoA repoB rfl,
   (C8_one_timestamp_per_run "2026-10-12 09:30:00").2.1 repoA gDefault false envDirty
     (commit_cmd repoA "2026-10-12 09:30:00")
     (by
       rw [show (sync_repo repoA gDefault "2026-10-12 09:30:00" false envDirty).1
           = [fetch_cmd repoA, pull_cmd repoA, build_git_add_cmd [], diff_cached_cmd,
              commit_cmd repoA "2026-10-12 09:30:00", push_cmd repoA] from rfl]
       simp)
     rfl⟩

/-! ### Claim C4 -/

/-- C4: on a valid document (a non-empty `repos` list whose entries all
parse, with a well-formed `global` entry) the loader returns exactly one
`RepoCfg` per list entry in list order; and `parseRepo` fills in the
documented default for every omitted optional field and user-expands the
path. -/
theorem C4_loader_defaults_and_order (home : String) (fields : List (String × Json))
    (entries : List Json) (rcfgs : List RepoCfg)
    (hrepos : dictGet fields "repos" = some (Json.arr entries))
    (hne : entries ≠ [])
    (hglob : globalValid fields = true)
    (hparse : parseRepos home entries = .ok rcfgs) :
    (∃ g, load_config home (.obj fields) = .ok (rcfgs, g))
    ∧ rcfgs.length = entries.length
    ∧ (∀ i (h1 : i < entries.length) (h2 : i < rcfgs.length),
        parseRepo home (entries.get ⟨i, h1⟩) = .ok (rcfgs.get ⟨i, h2⟩))
    ∧ (∀ (efs : List (String × Json)) (p : String) (cfg : RepoCfg),
        dictGet efs "path" = some (.str p) → parseRepo home (.obj efs) = .ok cfg →
        cfg.path = expanduser home p
        ∧ (dictGet efs "remote" = none → cfg.remote = "origin")
        ∧ (dictGet efs "branch" = none → cfg.branch = "main")
        ∧ (dictGet efs "message" = none → cfg.message = "Auto-commit {timestamp}")
        ∧ (dictGet efs "excludes" = none → cfg.excludes = [])) := by
  have hempty : entries.isEmpty = false := by
    cases entries with
    | nil => exact absurd rfl hne
    | cons a l => rfl
  refine ⟨?_, (parseRepos_ok home entries rcfgs hparse).1,
    (parseRepos_ok home entries rcfgs hparse).2, ?_⟩
  · simp only [load_config, hrepos, Option.getD_some, hempty, Bool.false_eq_true, if_false]
    unfold globalValid at hglob
    cases hg : dictGet fields "global" with
    | none =>
      simp only [Option.getD_none]
      have horE : orEmptyObj (Json.obj []) = Json.obj [] := rfl
      rw [horE]
      simp only [hparse]
      exact ⟨_, rfl⟩
    | some j =>
      rw [hg] at hglob
      simp only [Option.getD_some]
      by_cases ht : truthy j = true
      · have hobj : j.isObj = true := by
          simp only [Bool.or_eq_true, Bool.not_eq_true'] at hglob
          rcases hglob with h2 | h2
          · rw [ht] at h2
            exact absurd h2 (by decide)
          · exact h2
        cases j with
        | obj gfs =>
          have horE : orEmptyObj (Json.obj gfs) = Json.obj gfs := by
            simp [orEmptyObj, ht]
          rw [horE]
          simp only [hparse]
          exact ⟨_, rfl⟩
        | null => simp [Json.isObj] at hobj
        | bool b => simp [Json.isObj] at hobj
        | str s => simp [Json.isObj] at hobj
        | num n => simp [Json.isObj] at hobj
        | arr xs => simp [Json.isObj] at hobj
      · have ht2 : truthy j = false := by simpa using ht
        have horE : orEmptyObj j = Json.obj [] := by
          simp [orEmptyObj, ht2]
        rw [horE]
        simp only [hparse]
        exact ⟨_, rfl⟩
  · intro efs p cfg hpath hpr
    simp only [parseRepo, hpath] at hpr
    cases hrem : getStrField efs "remote" "origin" with
    | error e => rw [hrem] at hpr; exact absurd hpr (by simp)
    | ok remote =>
      rw [hrem] at hpr
      cases hbr : getStrField efs "branch" "main" with
      | error e => rw [hbr] at hpr; exact absurd hpr (by simp)
      | ok branch =>
        rw [hbr] at hpr
        cases hmsg : getStrField efs "message" "Auto-commit {timestamp}" with
        | error e => rw [hmsg] at hpr; exact absurd hpr (by simp)
        | ok message =>
          rw [hmsg] at hpr
          cases hexc : getExcludes (dictGet efs "excludes") with
          | error e => rw [hexc] at hpr; exact absurd hpr (by simp)
          | ok excludes =>
            rw [hexc] at hpr
            simp only [Except.ok.injEq] at hpr
            subst hpr
            refine ⟨rfl, ?_, ?_, ?_, ?_⟩
            · intro hnone
              unfold getStrField at hrem
              rw [hnone] at hrem
              simp only [Except.ok.injEq] at hrem
              exact hrem.symm
            · intro hnone
              unfold getStrField at hbr
              rw [hnone] at hbr
              simp only [Except.ok.injEq] at hbr
              exact hbr.symm
            · intro hnone
              unfold getStrField at hmsg
              rw [hnone] at hmsg
              simp only [Except.ok.injEq] at hmsg
              exact hmsg.symm
            · intro hnone
              rw [hnone] at hexc
              simp only [getExcludes, Except.ok.injEq] at hexc
              exact hexc.symm

/-- Witness for C4 at a concrete document: one entry with only a path,
loaded with expansion and all defaults. -/
theorem C4_loader_defaults_and_order_witness :
    ∃ g, load_config "/home/u" cfgC4 = .ok ([{ path := "/home/u/notes" }], g) :=
  (C4_loader_defaults_and_order "/home/u" [("repos", .arr [.obj [("path", .str "~/notes")]])]
    [.obj [("path", .str "~/notes")]] [{ path := "/home/u/notes" }]
    rfl (List.cons_ne_nil _ _) rfl rfl).1

/-! ### Claim C5 -/

/-- C5: every malformed-repos shape (key absent, empty list, not a list,
an entry without a path) makes the loader fail; a missing or unparseable
configuration file, or any load error, makes the process exit with code 2
without any repository environment being consulted; and every
per-repository status is at most 1, so the configuration failure code 2 is
distinct from them. -/
theorem C5_config_errors_exit_two (home : String) (fields : List (String × Json)) :
    (dictGet fields "repos" = none → ∃ e, load_config home (.obj fields) = .error e)
    ∧ (dictGet fields "repos" = some (.arr []) → ∃ e, load_config home (.obj fields) = .error e)
    ∧ (∀ j, dictGet fields "repos" = some j → j.isArr = false →
        ∃ e, load_config home (.obj fields) = .error e)
    ∧ (∀ (entries : List Json) (efs : List (String × Json)),
        dictGet fields "repos" = some (.arr entries) → Json.obj efs ∈ entries →
        dictGet efs "path" = none → ∃ e, load_config home (.obj fields) = .error e)
    ∧ (∀ (home2 ts : String) (dry : Bool) (envOf : String → GitEnv),
        autogit_main none home2 ts dry envOf = 2)
    ∧ (∀ (home2 ts : String) (dry : Bool) (envOf : String → GitEnv),
        autogit_main (some none) home2 ts dry envOf = 2)
    ∧ (∀ (cfg : Json) (home2 ts : String) (dry : Bool) (envOf : String → GitEnv) (e : String),
        load_config home2 cfg = .error e → autogit_main (some (some cfg)) home2 ts dry envOf = 2)
    ∧ (∀ (g : GlobalCfg) (ts : String) (dry : Bool) (envOf : String → GitEnv) (r : RepoCfg),
        repoStatus g ts dry envOf r ≤ 1) := by
  refine ⟨?_, ?_, ?_, ?_, ?_, ?_, ?_, ?_⟩
  · intro hnone
    refine ⟨"repos must be a non-empty list in JSON.", ?_⟩
    simp [load_config, hnone]
  · intro hempty
    refine ⟨"repos must be a non-empty list in JSON.", ?_⟩
    simp [load_config, hempty]
  · intro j hj hnotarr
    cases j with
    | arr xs => simp [Json.isArr] at hnotarr
    | null => exact ⟨"repos must be a non-empty list in JSON.", by simp [load_config, hj]⟩
    | bool b => exact ⟨"repos must be a non-empty list in JSON.", by simp [load_config, hj]⟩
    | str s => exact ⟨"repos must be a non-empty list in JSON.", by simp [load_config, hj]⟩
    | num n => exact ⟨"repos must be a non-empty list in JSON.", by simp [load_config, hj]⟩
    | obj fs2 => exact ⟨"repos must be a non-empty list in JSON.", by simp [load_config, hj]⟩
  · intro entries efs hrepos hmem hpath
    have hne : entries.isEmpty = false := by
      cases entries with
      | nil => exact absurd hmem (List.not_mem_nil _)
      | cons a l => rfl
    have hpe : parseRepo home (.obj efs) = .error "Each element in repos must have path." := by
      simp only [parseRepo, hpath]
    have hps : ∀ ys, parseRepos home entries ≠ .ok ys := by
      intro ys hok
      rcases parseRepos_ok_of_mem home entries ys hok (.obj efs) hmem with ⟨c, hc⟩
      rw [hpe] at hc
      exact Except.noConfusion hc
    simp only [load_config, hrepos, Option.getD_some, hne, Bool.false_eq_true, if_false]
    cases horE : orEmptyObj ((dictGet fields "global").getD (Json.obj [])) with
    | obj gfs =>
      cases hp2 : parseRepos home entries with
      | error e2 => exact ⟨e2, rfl⟩
      | ok ys => exact absurd hp2 (hps ys)
    | null => exact ⟨_, rfl⟩
    | bool b => exact ⟨_, rfl⟩
    | str s => exact ⟨_, rfl⟩
    | num n => exact ⟨_, rfl⟩
    | arr xs => exact ⟨_, rfl⟩
  · intro home2 ts dry envOf
    rfl
  · intro home2 ts dry envOf
    rfl
  · intro cfg home2 ts dry envOf e hload
    simp [autogit_main, hload]
  · intro g ts dry envOf r
    exact repoStatus_le g ts dry envOf r

/-- Witness for C5: a document without a `repos` key fails to load, the
process exits 2 on a missing file and on that failing document. -/
theorem C5_config_errors_exit_two_witness :
    (∃ e, load_config "/home/u" (.obj []) = .error e)
    ∧ autogit_main none "/home/u" "2026-10-12 08:00:00" false (fun _ => envClean) = 2
    ∧ autogit_main (some (some (.obj []))) "/home/u" "2026-10-12 08:00:00" false
        (fun _ => envClean) = 2 :=
  ⟨(C5_config_errors_exit_two "/home/u" []).1 rfl,
   (C5_config_errors_exit_two "/home/u" []).2.2.2.2.1 "/home/u" "2026-10-12 08:00:00" false
     (fun _ => envClean),
   (C5_config_errors_exit_two "/home/u" []).2.2.2.2.2.2.1 (.obj []) "/home/u"
     "2026-10-12 08:00:00" false (fun _ => envClean)
     "repos must be a non-empty list in JSON." rfl⟩

/-! ### Claim C10 -/

/-- C10: a `global` key with value `null` is treated exactly as if the key
were absent, and an `excludes` key with value `null` is treated exactly as
an absent one (the empty list); the concrete document `cfgC10` carrying
both loads successfully with every default applied. -/
theorem C10_null_global_and_excludes (home : String) (fields efs : List (String × Json))
    (hg : dictGet fields "global" = none) (hx : dictGet efs "excludes" = none) :
    load_config home (.obj (("global", Json.null) :: fields)) = load_config home (.obj fields)
    ∧ parseRepo home (.obj (("excludes", Json.null) :: efs)) = parseRepo home (.obj efs)
    ∧ load_config "/home/u" cfgC10 = .ok ([{ path := "/home/u/notes" }], {}) := by
  refine ⟨?_, ?_, rfl⟩
  · have hr : dictGet (("global", Json.null) :: fields) "repos" = dictGet fields "repos" :=
      dictGet_cons_ne "global" "repos" (by decide) Json.null fields
    have hg2 : dictGet (("global", Json.null) :: fields) "global" = some Json.null :=
      dictGet_cons_self "global" Json.null fields hg
    simp only [load_config, hr, hg2, hg, Option.getD_some, Option.getD_none]
    rfl
  · have h1 : dictGet (("excludes", Json.null) :: efs) "path" = dictGet efs "path" :=
      dictGet_cons_ne "excludes" "path" (by decide) Json.null efs
    have h2 := getStrField_cons_ne "excludes" "remote" "origin" (by decide) Json.null efs
    have h3 := getStrField_cons_ne "excludes" "branch" "main" (by decide) Json.null efs
    have h4 := getStrField_cons_ne "excludes" "message" "Auto-commit {timestamp}"
      (by decide) Json.null efs
    have h5 : dictGet (("excludes", Json.null) :: efs) "excludes" = some Json.null :=
      dictGet_cons_self "excludes" Json.null efs hx
    simp only [parseRepo, h1, h2, h3, h4, h5, hx]
    rfl

/-- Witness for C10 at concrete documents. -/
theorem C10_null_global_and_excludes_witness :
    load_config "/h" (.obj [("global", Json.null),
        ("repos", Json.arr [Json.obj [("path", Json.str "/r")]])])
      = load_config "/h" (.obj [("repos", Json.arr [Json.obj [("path", Json.str "/r")]])])
    ∧ parseRepo "/h" (.obj [("excludes", Json.null), ("path", Json.str "/r")])
      = parseRepo "/h" (.obj [("path", Json.str "/r")]) :=
  ⟨(C10_null_global_and_excludes "/h" [("repos", Json.arr [Json.obj [("path", Json.str "/r")]])]
      [("path", Json.str "/r")] rfl rfl).1,
   (C10_null_global_and_excludes "/h" [("repos", Json.arr [Json.obj [("path", Json.str "/r")]])]
      [("path", Json.str "/r")] rfl rfl).2.1⟩
